import Mathlib

/-!
Verification of the force-directed layout engine of `canvasGraph`
(`src/canvasGraph/layout.py`).

The Python code works on real-valued coordinates (`math.sqrt`, `/`); it is
embedded here over `ℝ`.  A Python `dict` of vertex positions is embedded as
an association list `List (V × ℝ × ℝ)` (insertion order preserved, lookup
returns the first matching entry); `vertex.dimensions(canvas)` is embedded as
a function `dims : V → ℝ × ℝ` giving the (width, height) pair of each
vertex's bounding box.  Real division by zero is total in Lean (`x / 0 = 0`)
whereas Python raises `ZeroDivisionError`; the places where the Python code
would raise are captured separately by explicit `Raises` predicates.
-/

namespace CanvasGraph

/-- Configuration constants of `OneStepForceBasedLayout.__init__`. -/
structure Config where
  minSpringLength : ℝ
  springStiffness : ℝ
  electricalRepulsion : ℝ
  maxForce : ℝ

/-- The defaults set in `OneStepForceBasedLayout.__init__`:
`minSpringLength = 60`, `springStiffness = 0.1`,
`electricalRepulsion = 500`, `maxForce = 10`. -/
def defaultConfig : Config :=
  { minSpringLength := 60
    springStiffness := 0.1
    electricalRepulsion := 500
    maxForce := 10 }

/-- Extra configuration of `ForceBasedLayout.__init__`. -/
structure FConfig where
  toConfig : Config
  iterationNumber : ℕ
  forceThreshold : ℝ

/-- The defaults of `ForceBasedLayout.__init__`:
`iterationNumber = 1000`, `forceThreshold = 0.001`. -/
def defaultFConfig : FConfig :=
  { toConfig := defaultConfig
    iterationNumber := 1000
    forceThreshold := 0.001 }

/-- An edge, with fields `origin` and `end` (the latter renamed `end_`,
`end` being a Lean keyword). -/
structure Edge (V : Type) where
  origin : V
  end_ : V

/-- A Python dict mapping vertices to (x, y) positions, embedded as an
association list in insertion order. -/
abbrev PosMap (V : Type) := List (V × ℝ × ℝ)

variable {V : Type} [DecidableEq V]

/-- Dict lookup `positions[v]`: the first entry with key `v`.  A missing key
raises `KeyError` in Python; here it defaults to `(0, 0)` (the engine only
looks up keys it iterates over, so the default is never reached on
well-formed input). -/
def lookup : PosMap V → V → ℝ × ℝ
  | [], _ => (0, 0)
  | e :: rest, v => if e.1 = v then e.2 else lookup rest v

/-- The key list of a positions dict. -/
def keys (positions : PosMap V) : List V := positions.map Prod.fst

/-- Embedding of `OneStepForceBasedLayout._distance_vector_from`.
Returns `(xvc + dvx, yvc + dvy, xoc + dox, yoc + doy)`: the point on
`vertex`'s boundary facing `other` followed by the point on `other`'s
boundary facing `vertex`. -/
noncomputable def distance_vector_from (positions : PosMap V)
    (dims : V → ℝ × ℝ) (vertex other : V) : ℝ × ℝ × ℝ × ℝ :=
  let xvc := (lookup positions vertex).1
  let yvc := (lookup positions vertex).2
  let vw := (dims vertex).1
  let vh := (dims vertex).2
  let xoc := (lookup positions other).1
  let yoc := (lookup positions other).2
  let ow := (dims other).1
  let oh := (dims other).2
  let xv1 := xvc + vw / 2
  let yv1 := yvc + vh / 2
  let xo1 := xoc + ow / 2
  let yo1 := yoc + oh / 2
  let av := xv1 - xvc
  let bv := yv1 - yvc
  let ao := xo1 - xoc
  let bo := yo1 - yoc
  if xoc ≠ xvc then
    let m := |(yoc - yvc) / (xoc - xvc)|
    let dvx := (av * bv) / Real.sqrt (av * av * m * m + bv * bv) *
      (if xoc < xvc then -1 else 1)
    let dox := (ao * bo) / Real.sqrt (ao * ao * m * m + bo * bo) *
      (if xoc > xvc then -1 else 1)
    let dvy := (av * bv * m) / Real.sqrt (av * av * m * m + bv * bv) *
      (if yoc < yvc then -1 else 1)
    let doy := (ao * bo * m) / Real.sqrt (ao * ao * m * m + bo * bo) *
      (if yoc > yvc then -1 else 1)
    (xvc + dvx, yvc + dvy, xoc + dox, yoc + doy)
  else
    let dvx := (0 : ℝ)
    let dox := (0 : ℝ)
    let dvy := bv * (if yoc < yvc then -1 else 1)
    let doy := bo * (if yoc > yvc then -1 else 1)
    (xvc + dvx, yvc + dvy, xoc + dox, yoc + doy)

/-- Embedding of `OneStepForceBasedLayout._hooke_attraction`: the spring
force applied on `vertex` by the edge joining it to `other`. -/
noncomputable def hooke_attraction (cfg : Config) (positions : PosMap V)
    (dims : V → ℝ × ℝ) (vertex other : V) : ℝ × ℝ :=
  let d := distance_vector_from positions dims vertex other
  let dx0 := d.1
  let dy0 := d.2.1
  let dx1 := d.2.2.1
  let dy1 := d.2.2.2
  let vcx := (lookup positions vertex).1
  let vcy := (lookup positions vertex).2
  let ocx := (lookup positions other).1
  let ocy := (lookup positions other).2
  if (ocx - vcx) * (dx1 - dx0) < 0 ∨ (ocy - vcy) * (dy1 - dy0) < 0 then
    (0, 0)
  else
    let dx := dx1 - dx0
    let dy := dy1 - dy0
    let distance := Real.sqrt (dx * dx + dy * dy)
    let dcx := ocx - vcx
    let dcy := ocy - vcy
    let length := Real.sqrt (dcx * dcx + dcy * dcy) - distance
    let length' := max length cfg.minSpringLength
    let force := -cfg.springStiffness * (length' - distance) / distance
    let force' := max (min force cfg.maxForce) (-cfg.maxForce)
    (force' * dx, force' * dy)

/-- Embedding of `OneStepForceBasedLayout._coulomb_repulsion`: the
electrical force produced on `vertex` by `other`. -/
noncomputable def coulomb_repulsion (cfg : Config) (positions : PosMap V)
    (dims : V → ℝ × ℝ) (vertex other : V) : ℝ × ℝ :=
  let d := distance_vector_from positions dims vertex other
  let dx0 := d.1
  let dy0 := d.2.1
  let dx1 := d.2.2.1
  let dy1 := d.2.2.2
  let vcx := (lookup positions vertex).1
  let vcy := (lookup positions vertex).2
  let ocx := (lookup positions other).1
  let ocy := (lookup positions other).2
  let dx0' := if (ocx - vcx) * (dx1 - dx0) < 0 then dx1 else dx0
  let dx1' := if (ocx - vcx) * (dx1 - dx0) < 0 then dx0 else dx1
  let dy0' := if (ocy - vcy) * (dy1 - dy0) < 0 then dy1 else dy0
  let dy1' := if (ocy - vcy) * (dy1 - dy0) < 0 then dy0 else dy1
  let dx := dx1' - dx0'
  let dy := dy1' - dy0'
  let distance := Real.sqrt (dx * dx + dy * dy)
  let force := -cfg.electricalRepulsion / (distance * distance)
  let force' := max (min force cfg.maxForce) (-cfg.maxForce)
  (force' * dx, force' * dy)

/-- The net force `(fx, fy)` accumulated for one `vertex` by the force loop
of `OneStepForceBasedLayout.apply`: Coulomb repulsion from every other
vertex of `positions`, then Hooke attraction along every incident edge. -/
noncomputable def netForce (cfg : Config) (positions : PosMap V)
    (dims : V → ℝ × ℝ) (edges : List (Edge V)) (vertex : V) : ℝ × ℝ :=
  let rep := positions.foldl
    (fun (f : ℝ × ℝ) e =>
      if vertex ≠ e.1 then
        let c := coulomb_repulsion cfg positions dims vertex e.1
        (f.1 + c.1, f.2 + c.2)
      else f)
    (0, 0)
  edges.foldl
    (fun (f : ℝ × ℝ) edge =>
      if edge.origin = vertex ∨ edge.end_ = vertex then
        let other := if edge.origin = vertex then edge.end_ else edge.origin
        let h := hooke_attraction cfg positions dims vertex other
        (f.1 + h.1, f.2 + h.2)
      else f)
    rep

/-- Euclidean norm `math.sqrt(fx*fx + fy*fy)` of a force vector. -/
noncomputable def magnitude (f : ℝ × ℝ) : ℝ := Real.sqrt (f.1 * f.1 + f.2 * f.2)

/-- Embedding of `OneStepForceBasedLayout.apply`: one step of the force
simulation.  Returns the fresh positions dict and the mean force
`sumForces / len(newPositions)` (or `0` on an empty dict). -/
noncomputable def OneStep_apply (cfg : Config) (positions : PosMap V)
    (dims : V → ℝ × ℝ) (edges : List (Edge V)) (fixed : List V) :
    PosMap V × ℝ :=
  let forces : V → ℝ × ℝ := fun vertex => netForce cfg positions dims edges vertex
  let res := positions.foldl
    (fun (acc : PosMap V × ℝ) e =>
      let vertex := e.1
      let fx := (forces vertex).1
      let fy := (forces vertex).2
      let x := (lookup positions vertex).1
      let y := (lookup positions vertex).2
      let nx := x + fx
      let ny := y + fy
      let sf := acc.2 + Real.sqrt (fx * fx + fy * fy)
      if vertex ∉ fixed then (acc.1 ++ [(vertex, nx, ny)], sf)
      else (acc.1 ++ [(vertex, x, y)], sf))
    ([], 0)
  (res.1, if res.1.length > 0 then res.2 / res.1.length else 0)

/-- The iteration loop of `ForceBasedLayout.apply`: at most `n` remaining
steps, stopping early as soon as a step's mean force drops below
`forceThreshold`. -/
noncomputable def ForceBased_loop (fcfg : FConfig) (dims : V → ℝ × ℝ)
    (edges : List (Edge V)) (fixed : List V) :
    ℕ → PosMap V → PosMap V
  | 0, np => np
  | n + 1, np =>
    let r := OneStep_apply fcfg.toConfig np dims edges fixed
    if r.2 < fcfg.forceThreshold then r.1
    else ForceBased_loop fcfg dims edges fixed n r.1

/-- Embedding of `ForceBasedLayout.apply`: run the loop for at most
`iterationNumber` steps and return only the final positions dict. -/
noncomputable def ForceBased_apply (fcfg : FConfig) (vertices : PosMap V)
    (dims : V → ℝ × ℝ) (edges : List (Edge V)) (fixed : List V) : PosMap V :=
  ForceBased_loop fcfg dims edges fixed fcfg.iterationNumber vertices

/-- Unconditional iteration of the single step (no convergence test):
`stepIter n p` is the positions dict after `n` single steps from `p`. -/
noncomputable def stepIter (cfg : Config) (dims : V → ℝ × ℝ)
    (edges : List (Edge V)) (fixed : List V) : ℕ → PosMap V → PosMap V
  | 0, p => p
  | n + 1, p => (OneStep_apply cfg (stepIter cfg dims edges fixed n p) dims edges fixed).1

/-- The x-component `dx1 - dx0` of the boundary-to-boundary vector computed
by `_distance_vector_from` (before any overlap swap). -/
noncomputable def dvecX (positions : PosMap V) (dims : V → ℝ × ℝ)
    (vertex other : V) : ℝ :=
  (distance_vector_from positions dims vertex other).2.2.1 -
    (distance_vector_from positions dims vertex other).1

/-- The y-component `dy1 - dy0` of the boundary-to-boundary vector computed
by `_distance_vector_from` (before any overlap swap). -/
noncomputable def dvecY (positions : PosMap V) (dims : V → ℝ × ℝ)
    (vertex other : V) : ℝ :=
  (distance_vector_from positions dims vertex other).2.2.2 -
    (distance_vector_from positions dims vertex other).2.1

/-- The boundary-to-boundary distance between two vertices, as measured by
the force routines before any overlap swap. -/
noncomputable def boundaryDistance (positions : PosMap V) (dims : V → ℝ × ℝ)
    (vertex other : V) : ℝ :=
  Real.sqrt (dvecX positions dims vertex other * dvecX positions dims vertex other +
    dvecY positions dims vertex other * dvecY positions dims vertex other)

/-- The x-axis overlap test `(ocx - vcx) * (dx1 - dx0) < 0` shared by
`_hooke_attraction` and `_coulomb_repulsion`. -/
def overlapX (positions : PosMap V) (dims : V → ℝ × ℝ)
    (vertex other : V) : Prop :=
  ((lookup positions other).1 - (lookup positions vertex).1) *
    dvecX positions dims vertex other < 0

/-- The y-axis overlap test `(ocy - vcy) * (dy1 - dy0) < 0` shared by
`_hooke_attraction` and `_coulomb_repulsion`. -/
def overlapY (positions : PosMap V) (dims : V → ℝ × ℝ)
    (vertex other : V) : Prop :=
  ((lookup positions other).2 - (lookup positions vertex).2) *
    dvecY positions dims vertex other < 0

noncomputable instance (positions : PosMap V) (dims : V → ℝ × ℝ)
    (vertex other : V) : Decidable (overlapX positions dims vertex other) := by
  unfold overlapX
  infer_instance

noncomputable instance (positions : PosMap V) (dims : V → ℝ × ℝ)
    (vertex other : V) : Decidable (overlapY positions dims vertex other) := by
  unfold overlapY
  infer_instance

/-- The value stored for key `v` in the dict built by the second loop of
`OneStepForceBasedLayout.apply`: the old position shifted by the net force,
or the old position unchanged when `v` is fixed. -/
noncomputable def stepVal (cfg : Config) (positions : PosMap V)
    (dims : V → ℝ × ℝ) (edges : List (Edge V)) (fixed : List V) (v : V) :
    ℝ × ℝ :=
  if v ∉ fixed then
    ((lookup positions v).1 + (netForce cfg positions dims edges v).1,
     (lookup positions v).2 + (netForce cfg positions dims edges v).2)
  else lookup positions v

/-! ### Characterization of the second loop of `OneStepForceBasedLayout.apply` -/

lemma foldl_build {A B : Type _} (F : List B × ℝ → A → List B × ℝ)
    (g : A → B) (m : A → ℝ)
    (hF : ∀ acc e, F acc e = (acc.1 ++ [g e], acc.2 + m e)) :
    ∀ (l : List A) (a : List B) (s : ℝ),
      l.foldl F (a, s) = (a ++ l.map g, s + (l.map m).sum) := by
  intro l
  induction l with
  | nil => intro a s; simp
  | cons e l ih =>
    intro a s
    rw [List.foldl_cons, hF, ih]
    simp [add_assoc]

lemma OneStep_apply_eq (cfg : Config) (positions : PosMap V)
    (dims : V → ℝ × ℝ) (edges : List (Edge V)) (fixed : List V) :
    OneStep_apply cfg positions dims edges fixed =
      (positions.map (fun e => (e.1, stepVal cfg positions dims edges fixed e.1)),
       if 0 < positions.length then
         (positions.map (fun e =>
           magnitude (netForce cfg positions dims edges e.1))).sum / positions.length
       else 0) := by
  simp only [OneStep_apply]
  rw [foldl_build _ (fun e => (e.1, stepVal cfg positions dims edges fixed e.1))
    (fun e => magnitude (netForce cfg positions dims edges e.1))
    (by
      intro acc e
      by_cases h : e.1 ∈ fixed <;> simp [stepVal, magnitude, h])]
  simp [gt_iff_lt]

lemma lookup_map_keyed (l : PosMap V) (f : V → ℝ × ℝ) (v : V) :
    lookup (l.map (fun e => (e.1, f e.1))) v =
      if v ∈ keys l then f v else (0, 0) := by
  induction l with
  | nil => simp [lookup, keys]
  | cons e l ih =>
    by_cases h : e.1 = v
    · subst h
      simp [lookup, keys]
    · simp only [List.map_cons, lookup, ih, keys, List.mem_cons]
      rw [if_neg h]
      by_cases hv : v ∈ l.map Prod.fst
      · rw [if_pos hv, if_pos (Or.inr hv)]
      · rw [if_neg hv, if_neg]
        rintro (h' | h')
        · exact h h'.symm
        · exact hv h'

lemma lookup_of_not_mem_keys (l : PosMap V) (v : V) (h : v ∉ keys l) :
    lookup l v = (0, 0) := by
  induction l with
  | nil => rfl
  | cons e l ih =>
    simp only [keys, List.map_cons, List.mem_cons] at h
    push_neg at h
    simp only [lookup]
    rw [if_neg (fun h' => h.1 h'.symm), ih]
    simpa [keys] using h.2

lemma keys_OneStep_apply (cfg : Config) (positions : PosMap V)
    (dims : V → ℝ × ℝ) (edges : List (Edge V)) (fixed : List V) :
    keys (OneStep_apply cfg positions dims edges fixed).1 = keys positions := by
  rw [OneStep_apply_eq]
  simp [keys, List.map_map]

lemma lookup_OneStep_apply (cfg : Config) (positions : PosMap V)
    (dims : V → ℝ × ℝ) (edges : List (Edge V)) (fixed : List V) (v : V) :
    lookup (OneStep_apply cfg positions dims edges fixed).1 v =
      if v ∈ keys positions then stepVal cfg positions dims edges fixed v
      else (0, 0) := by
  rw [OneStep_apply_eq]
  exact lookup_map_keyed positions _ v

/-! ### Antisymmetry of the boundary-to-boundary vector -/

lemma dvecX_swap (positions : PosMap V) (dims : V → ℝ × ℝ) (v o : V) :
    dvecX positions dims o v = -dvecX positions dims v o := by
  have hm : |((lookup positions v).2 - (lookup positions o).2) /
      ((lookup positions v).1 - (lookup positions o).1)| =
      |((lookup positions o).2 - (lookup positions v).2) /
      ((lookup positions o).1 - (lookup positions v).1)| := by
    rw [← neg_sub (lookup positions o).2 (lookup positions v).2,
      ← neg_sub (lookup positions o).1 (lookup positions v).1, neg_div_neg_eq]
  by_cases hx : (lookup positions o).1 = (lookup positions v).1
  · simp only [dvecX, distance_vector_from, hx, ne_eq, not_true_eq_false,
      if_false, ite_false]
    ring
  · simp only [dvecX, distance_vector_from, ne_eq, hx, Ne.symm hx,
      not_false_eq_true, if_true, ite_true, gt_iff_lt]
    rw [hm]
    ring

lemma dvecY_swap (positions : PosMap V) (dims : V → ℝ × ℝ) (v o : V) :
    dvecY positions dims o v = -dvecY positions dims v o := by
  have hm : |((lookup positions v).2 - (lookup positions o).2) /
      ((lookup positions v).1 - (lookup positions o).1)| =
      |((lookup positions o).2 - (lookup positions v).2) /
      ((lookup positions o).1 - (lookup positions v).1)| := by
    rw [← neg_sub (lookup positions o).2 (lookup positions v).2,
      ← neg_sub (lookup positions o).1 (lookup positions v).1, neg_div_neg_eq]
  by_cases hx : (lookup positions o).1 = (lookup positions v).1
  · simp only [dvecY, distance_vector_from, hx, ne_eq, not_true_eq_false,
      if_false, ite_false]
    ring
  · simp only [dvecY, distance_vector_from, ne_eq, hx, Ne.symm hx,
      not_false_eq_true, if_true, ite_true, gt_iff_lt]
    rw [hm]
    ring

/-- Center-to-center distance `math.sqrt(dcx*dcx + dcy*dcy)` used by
`_hooke_attraction` for the spring rest length. -/
noncomputable def centerDistance (positions : PosMap V) (v o : V) : ℝ :=
  Real.sqrt (((lookup positions o).1 - (lookup positions v).1) *
      ((lookup positions o).1 - (lookup positions v).1) +
    ((lookup positions o).2 - (lookup positions v).2) *
      ((lookup positions o).2 - (lookup positions v).2))

/-- The clamped scalar coefficient computed by `_hooke_attraction`. -/
noncomputable def hookeForceScalar (cfg : Config) (positions : PosMap V)
    (dims : V → ℝ × ℝ) (v o : V) : ℝ :=
  max (min (-cfg.springStiffness *
      (max (centerDistance positions v o - boundaryDistance positions dims v o)
          cfg.minSpringLength -
        boundaryDistance positions dims v o) /
      boundaryDistance positions dims v o)
    cfg.maxForce) (-cfg.maxForce)

/-- The clamped scalar coefficient computed by `_coulomb_repulsion`. -/
noncomputable def coulombForceScalar (cfg : Config) (positions : PosMap V)
    (dims : V → ℝ × ℝ) (v o : V) : ℝ :=
  max (min (-cfg.electricalRepulsion /
      (boundaryDistance positions dims v o * boundaryDistance positions dims v o))
    cfg.maxForce) (-cfg.maxForce)

/-- The effective x-component used by `_coulomb_repulsion` after the
overlap swap. -/
noncomputable def coulombDX (positions : PosMap V) (dims : V → ℝ × ℝ)
    (v o : V) : ℝ :=
  if overlapX positions dims v o then -dvecX positions dims v o
  else dvecX positions dims v o

/-- The effective y-component used by `_coulomb_repulsion` after the
overlap swap. -/
noncomputable def coulombDY (positions : PosMap V) (dims : V → ℝ × ℝ)
    (v o : V) : ℝ :=
  if overlapY positions dims v o then -dvecY positions dims v o
  else dvecY positions dims v o

lemma hooke_attraction_eq (cfg : Config) (positions : PosMap V)
    (dims : V → ℝ × ℝ) (v o : V) :
    hooke_attraction cfg positions dims v o =
      if overlapX positions dims v o ∨ overlapY positions dims v o then (0, 0)
      else (hookeForceScalar cfg positions dims v o * dvecX positions dims v o,
        hookeForceScalar cfg positions dims v o * dvecY positions dims v o) := by
  simp only [hooke_attraction, hookeForceScalar, boundaryDistance, centerDistance,
    overlapX, overlapY, dvecX, dvecY]

lemma coulomb_repulsion_eq (cfg : Config) (positions : PosMap V)
    (dims : V → ℝ × ℝ) (v o : V) :
    coulomb_repulsion cfg positions dims v o =
      (coulombForceScalar cfg positions dims v o * coulombDX positions dims v o,
       coulombForceScalar cfg positions dims v o * coulombDY positions dims v o) := by
  simp only [coulomb_repulsion, coulombForceScalar, coulombDX, coulombDY,
    boundaryDistance, overlapX, overlapY, dvecX, dvecY, Prod.mk.injEq]
  split_ifs with h1 h2 h2 <;> constructor <;> ring_nf

lemma overlapX_symm (positions : PosMap V) (dims : V → ℝ × ℝ) (v o : V) :
    overlapX positions dims o v ↔ overlapX positions dims v o := by
  unfold overlapX
  rw [dvecX_swap]
  have h : ((lookup positions v).1 - (lookup positions o).1) *
      -dvecX positions dims v o =
      ((lookup positions o).1 - (lookup positions v).1) *
      dvecX positions dims v o := by ring
  rw [h]

lemma overlapY_symm (positions : PosMap V) (dims : V → ℝ × ℝ) (v o : V) :
    overlapY positions dims o v ↔ overlapY positions dims v o := by
  unfold overlapY
  rw [dvecY_swap]
  have h : ((lookup positions v).2 - (lookup positions o).2) *
      -dvecY positions dims v o =
      ((lookup positions o).2 - (lookup positions v).2) *
      dvecY positions dims v o := by ring
  rw [h]

lemma boundaryDistance_symm (positions : PosMap V) (dims : V → ℝ × ℝ) (v o : V) :
    boundaryDistance positions dims o v = boundaryDistance positions dims v o := by
  unfold boundaryDistance
  rw [dvecX_swap, dvecY_swap]
  have h : -dvecX positions dims v o * -dvecX positions dims v o +
      -dvecY positions dims v o * -dvecY positions dims v o =
      dvecX positions dims v o * dvecX positions dims v o +
      dvecY positions dims v o * dvecY positions dims v o := by ring
  rw [h]

lemma coulombDX_swap (positions : PosMap V) (dims : V → ℝ × ℝ) (v o : V) :
    coulombDX positions dims o v = -coulombDX positions dims v o := by
  unfold coulombDX
  simp only [overlapX_symm positions dims v o, dvecX_swap positions dims v o]
  split_ifs <;> ring

lemma coulombDY_swap (positions : PosMap V) (dims : V → ℝ × ℝ) (v o : V) :
    coulombDY positions dims o v = -coulombDY positions dims v o := by
  unfold coulombDY
  simp only [overlapY_symm positions dims v o, dvecY_swap positions dims v o]
  split_ifs <;> ring

lemma coulombForceScalar_symm (cfg : Config) (positions : PosMap V)
    (dims : V → ℝ × ℝ) (v o : V) :
    coulombForceScalar cfg positions dims o v =
      coulombForceScalar cfg positions dims v o := by
  unfold coulombForceScalar
  rw [boundaryDistance_symm]

/-- Antisymmetry of the Coulomb repulsion: the force `other` exerts on
`vertex` is the exact negation of the force `vertex` exerts on `other`,
for every configuration (the overlap swap fires symmetrically). -/
lemma coulomb_repulsion_swap (cfg : Config) (positions : PosMap V)
    (dims : V → ℝ × ℝ) (v o : V) :
    coulomb_repulsion cfg positions dims o v =
      (-(coulomb_repulsion cfg positions dims v o).1,
       -(coulomb_repulsion cfg positions dims v o).2) := by
  rw [coulomb_repulsion_eq, coulomb_repulsion_eq, coulombDX_swap, coulombDY_swap,
    coulombForceScalar_symm]
  simp [mul_neg]

/-! ### The iteration loop of `ForceBasedLayout.apply` -/

lemma stepIter_succ_left (cfg : Config) (dims : V → ℝ × ℝ)
    (edges : List (Edge V)) (fixed : List V) (n : ℕ) (p : PosMap V) :
    stepIter cfg dims edges fixed (n + 1) p =
      stepIter cfg dims edges fixed n (OneStep_apply cfg p dims edges fixed).1 := by
  induction n with
  | zero => rfl
  | succ n ih =>
    rw [show stepIter cfg dims edges fixed (n + 1 + 1) p =
        (OneStep_apply cfg (stepIter cfg dims edges fixed (n + 1) p)
          dims edges fixed).1 from rfl, ih]
    rfl

lemma ForceBased_loop_spec (fcfg : FConfig) (dims : V → ℝ × ℝ)
    (edges : List (Edge V)) (fixed : List V) :
    ∀ (N : ℕ) (p : PosMap V), ∃ n, n ≤ N ∧
      ForceBased_loop fcfg dims edges fixed N p =
        stepIter fcfg.toConfig dims edges fixed n p ∧
      (∀ k, k + 1 < n → fcfg.forceThreshold ≤
        (OneStep_apply fcfg.toConfig (stepIter fcfg.toConfig dims edges fixed k p)
          dims edges fixed).2) ∧
      (n < N → 0 < n ∧
        (OneStep_apply fcfg.toConfig (stepIter fcfg.toConfig dims edges fixed (n - 1) p)
          dims edges fixed).2 < fcfg.forceThreshold) := by
  intro N
  induction N with
  | zero =>
    intro p
    exact ⟨0, le_refl 0, rfl, fun k hk => absurd hk (by omega),
      fun h => absurd h (by omega)⟩
  | succ N ih =>
    intro p
    by_cases hc : (OneStep_apply fcfg.toConfig p dims edges fixed).2 <
        fcfg.forceThreshold
    · refine ⟨1, by omega, ?_, ?_, ?_⟩
      · simp only [ForceBased_loop]
        rw [if_pos hc]
        rfl
      · intro k hk
        exact absurd hk (by omega)
      · intro _
        exact ⟨one_pos, by simpa only [stepIter] using hc⟩
    · obtain ⟨m, hmN, hloop, hA, hB⟩ :=
        ih (OneStep_apply fcfg.toConfig p dims edges fixed).1
      refine ⟨m + 1, by omega, ?_, ?_, ?_⟩
      · simp only [ForceBased_loop]
        rw [if_neg hc, hloop, ← stepIter_succ_left]
      · intro k hk
        cases k with
        | zero =>
          simpa only [stepIter] using not_lt.mp hc
        | succ j =>
          rw [stepIter_succ_left]
          exact hA j (by omega)
      · intro h
        obtain ⟨hm0, hsf⟩ := hB (by omega)
        refine ⟨by omega, ?_⟩
        rw [show m + 1 - 1 = (m - 1) + 1 by omega, stepIter_succ_left]
        exact hsf

lemma keys_ForceBased_loop (fcfg : FConfig) (dims : V → ℝ × ℝ)
    (edges : List (Edge V)) (fixed : List V) :
    ∀ (N : ℕ) (p : PosMap V),
      keys (ForceBased_loop fcfg dims edges fixed N p) = keys p := by
  intro N
  induction N with
  | zero => intro p; rfl
  | succ N ih =>
    intro p
    simp only [ForceBased_loop]
    split_ifs
    · exact keys_OneStep_apply _ _ _ _ _
    · rw [ih, keys_OneStep_apply]

lemma lookup_OneStep_fixed (cfg : Config) (positions : PosMap V)
    (dims : V → ℝ × ℝ) (edges : List (Edge V)) (fixed : List V) (v : V)
    (hv : v ∈ fixed) :
    lookup (OneStep_apply cfg positions dims edges fixed).1 v =
      lookup positions v := by
  rw [lookup_OneStep_apply]
  by_cases hk : v ∈ keys positions
  · rw [if_pos hk]
    unfold stepVal
    rw [if_neg (not_not_intro hv)]
  · rw [if_neg hk, lookup_of_not_mem_keys positions v hk]

lemma lookup_ForceBased_loop_fixed (fcfg : FConfig) (dims : V → ℝ × ℝ)
    (edges : List (Edge V)) (fixed : List V) (v : V) (hv : v ∈ fixed) :
    ∀ (N : ℕ) (p : PosMap V),
      lookup (ForceBased_loop fcfg dims edges fixed N p) v = lookup p v := by
  intro N
  induction N with
  | zero => intro p; rfl
  | succ N ih =>
    intro p
    simp only [ForceBased_loop]
    split_ifs
    · exact lookup_OneStep_fixed _ _ _ _ _ _ hv
    · rw [ih, lookup_OneStep_fixed _ _ _ _ _ _ hv]

/-! ### Magnitude bounds -/

lemma magnitude_smul (c x y : ℝ) :
    magnitude (c * x, c * y) = |c| * magnitude (x, y) := by
  unfold magnitude
  have h : c * x * (c * x) + c * y * (c * y) = c ^ 2 * (x * x + y * y) := by
    ring
  rw [h, Real.sqrt_mul (sq_nonneg c), Real.sqrt_sq_eq_abs]

lemma abs_clamp_le (f M : ℝ) (hM : 0 ≤ M) : |max (min f M) (-M)| ≤ M := by
  rw [abs_le]
  refine ⟨le_max_right _ _, max_le (min_le_right f M) (by linarith)⟩

lemma coulomb_distance_eq (positions : PosMap V) (dims : V → ℝ × ℝ) (v o : V) :
    Real.sqrt (coulombDX positions dims v o * coulombDX positions dims v o +
        coulombDY positions dims v o * coulombDY positions dims v o) =
      boundaryDistance positions dims v o := by
  unfold coulombDX coulombDY boundaryDistance
  split_ifs <;> ring_nf

lemma coulomb_magnitude_le (cfg : Config) (positions : PosMap V)
    (dims : V → ℝ × ℝ) (v o : V) (hM : 0 ≤ cfg.maxForce) :
    magnitude (coulomb_repulsion cfg positions dims v o) ≤
      cfg.maxForce * boundaryDistance positions dims v o := by
  rw [coulomb_repulsion_eq, magnitude_smul]
  have hbd : magnitude (coulombDX positions dims v o, coulombDY positions dims v o) =
      boundaryDistance positions dims v o := coulomb_distance_eq positions dims v o
  rw [hbd]
  refine mul_le_mul_of_nonneg_right ?_ ?_
  · unfold coulombForceScalar
    exact abs_clamp_le _ _ hM
  · exact Real.sqrt_nonneg _

lemma hooke_magnitude_le (cfg : Config) (positions : PosMap V)
    (dims : V → ℝ × ℝ) (v o : V) (hM : 0 ≤ cfg.maxForce) :
    magnitude (hooke_attraction cfg positions dims v o) ≤
      cfg.maxForce * boundaryDistance positions dims v o := by
  rw [hooke_attraction_eq]
  split_ifs with h
  · have h0 : magnitude ((0 : ℝ), (0 : ℝ)) = 0 := by
      simp [magnitude]
    rw [h0]
    exact mul_nonneg hM (Real.sqrt_nonneg _)
  · rw [magnitude_smul]
    refine mul_le_mul_of_nonneg_right ?_ (Real.sqrt_nonneg _)
    unfold hookeForceScalar
    exact abs_clamp_le _ _ hM

/-! ### The spring at its rest length -/

lemma centerDistance_symm (positions : PosMap V) (v o : V) :
    centerDistance positions o v = centerDistance positions v o := by
  unfold centerDistance
  have h : ((lookup positions v).1 - (lookup positions o).1) *
        ((lookup positions v).1 - (lookup positions o).1) +
      ((lookup positions v).2 - (lookup positions o).2) *
        ((lookup positions v).2 - (lookup positions o).2) =
      ((lookup positions o).1 - (lookup positions v).1) *
        ((lookup positions o).1 - (lookup positions v).1) +
      ((lookup positions o).2 - (lookup positions v).2) *
        ((lookup positions o).2 - (lookup positions v).2) := by ring
  rw [h]

lemma hooke_zero_at_rest (cfg : Config) (positions : PosMap V)
    (dims : V → ℝ × ℝ) (v o : V) (hM : 0 ≤ cfg.maxForce)
    (hx : ¬overlapX positions dims v o) (hy : ¬overlapY positions dims v o)
    (hrest : boundaryDistance positions dims v o =
      max (centerDistance positions v o - boundaryDistance positions dims v o)
        cfg.minSpringLength) :
    hooke_attraction cfg positions dims v o = (0, 0) := by
  rw [hooke_attraction_eq, if_neg (by tauto)]
  have hscalar : hookeForceScalar cfg positions dims v o = 0 := by
    unfold hookeForceScalar
    rw [← hrest, sub_self, mul_zero, zero_div]
    rw [min_eq_left hM, max_eq_left (neg_nonpos.mpr hM)]
  rw [hscalar, zero_mul, zero_mul]

lemma netForce_pair_left (cfg : Config) (dims : V → ℝ × ℝ) (a b : V)
    (pa pb : ℝ × ℝ) (hab : a ≠ b) :
    netForce cfg [(a, pa), (b, pb)] dims [⟨a, b⟩] a =
      ((coulomb_repulsion cfg [(a, pa), (b, pb)] dims a b).1 +
        (hooke_attraction cfg [(a, pa), (b, pb)] dims a b).1,
       (coulomb_repulsion cfg [(a, pa), (b, pb)] dims a b).2 +
        (hooke_attraction cfg [(a, pa), (b, pb)] dims a b).2) := by
  simp [netForce, hab]

lemma netForce_pair_right (cfg : Config) (dims : V → ℝ × ℝ) (a b : V)
    (pa pb : ℝ × ℝ) (hab : a ≠ b) :
    netForce cfg [(a, pa), (b, pb)] dims [⟨a, b⟩] b =
      ((coulomb_repulsion cfg [(a, pa), (b, pb)] dims b a).1 +
        (hooke_attraction cfg [(a, pa), (b, pb)] dims b a).1,
       (coulomb_repulsion cfg [(a, pa), (b, pb)] dims b a).2 +
        (hooke_attraction cfg [(a, pa), (b, pb)] dims b a).2) := by
  simp [netForce, hab, Ne.symm hab]

/-! ### Division-by-zero sites (Python `ZeroDivisionError` model) -/

lemma dvecX_self (positions : PosMap V) (dims : V → ℝ × ℝ) (v : V) :
    dvecX positions dims v v = 0 := by
  simp [dvecX, distance_vector_from]

lemma dvecY_self (positions : PosMap V) (dims : V → ℝ × ℝ) (v : V) :
    dvecY positions dims v v = 0 := by
  simp [dvecY, distance_vector_from]

lemma boundaryDistance_self (positions : PosMap V) (dims : V → ℝ × ℝ) (v : V) :
    boundaryDistance positions dims v v = 0 := by
  simp [boundaryDistance, dvecX_self, dvecY_self]

lemma not_overlapX_self (positions : PosMap V) (dims : V → ℝ × ℝ) (v : V) :
    ¬overlapX positions dims v v := by
  simp [overlapX, dvecX_self]

lemma not_overlapY_self (positions : PosMap V) (dims : V → ℝ × ℝ) (v : V) :
    ¬overlapY positions dims v v := by
  simp [overlapY, dvecY_self]

/-- The condition under which the division `force = ... / distance` of
`_hooke_attraction` is a division by zero (Python raises
`ZeroDivisionError` there): the overlap early return is not taken and the
boundary-to-boundary distance is zero. -/
def hookeRaisesDivByZero (positions : PosMap V) (dims : V → ℝ × ℝ)
    (vertex other : V) : Prop :=
  ¬(overlapX positions dims vertex other ∨ overlapY positions dims vertex other) ∧
  boundaryDistance positions dims vertex other = 0

/-- Some division performed by the force loop of
`OneStepForceBasedLayout.apply` is a division by zero.  Every force term is
computed from the unchanged input snapshot, so in Python the first such site
reached raises `ZeroDivisionError` out of `apply`. -/
def applyRaisesDivByZero (positions : PosMap V) (dims : V → ℝ × ℝ)
    (edges : List (Edge V)) : Prop :=
  (∃ e ∈ positions, ∃ e' ∈ positions, e.1 ≠ e'.1 ∧
    boundaryDistance positions dims e.1 e'.1 = 0) ∨
  (∃ e ∈ positions, ∃ edge ∈ edges,
    (edge.origin = e.1 ∨ edge.end_ = e.1) ∧
    hookeRaisesDivByZero positions dims e.1
      (if edge.origin = e.1 then edge.end_ else edge.origin))

/-! ### Concrete instances -/

/-- Two 20×20 vertices. -/
noncomputable abbrev dims20 : Bool → ℝ × ℝ := fun _ => (20, 20)

/-- Centers (0,0) and (30,0): boundary gap 10. -/
noncomputable abbrev posAB : PosMap Bool := [(false, (0, 0)), (true, (30, 0))]

/-- Centers (0,0) and (80,0): boundary gap 60 = default rest length. -/
noncomputable abbrev posAB80 : PosMap Bool := [(false, (0, 0)), (true, (80, 0))]

/-- Centers (0,0) and (5,0): the two 20×20 boxes overlap. -/
noncomputable abbrev posOverlap : PosMap Bool := [(false, (0, 0)), (true, (5, 0))]

/-- A single vertex at the origin. -/
noncomputable abbrev posSelf : PosMap Bool := [(true, (0, 0))]

lemma sqrt_eq_of_sq (a b : ℝ) (hb : 0 ≤ b) (h : a = b * b) :
    Real.sqrt a = b := by
  rw [h]
  exact Real.sqrt_mul_self hb

lemma magnitude_neg (x y : ℝ) : magnitude (-x, -y) = magnitude (x, y) := by
  unfold magnitude
  rw [show -x * -x + -y * -y = x * x + y * y by ring]

lemma dvf_posAB : distance_vector_from posAB dims20 false true = (10, 0, 20, 0) := by
  have s : Real.sqrt (100 : ℝ) = 10 := sqrt_eq_of_sq 100 10 (by norm_num) (by norm_num)
  norm_num [distance_vector_from, lookup, s]

lemma dvecX_posAB : dvecX posAB dims20 false true = 10 := by
  norm_num [dvecX, dvf_posAB]

lemma dvecY_posAB : dvecY posAB dims20 false true = 0 := by
  norm_num [dvecY, dvf_posAB]

lemma bd_posAB : boundaryDistance posAB dims20 false true = 10 := by
  have s : Real.sqrt (100 : ℝ) = 10 := sqrt_eq_of_sq 100 10 (by norm_num) (by norm_num)
  norm_num [boundaryDistance, dvecX_posAB, dvecY_posAB, s]

lemma not_overlapX_posAB : ¬overlapX posAB dims20 false true := by
  norm_num [overlapX, dvecX_posAB, lookup]

lemma not_overlapY_posAB : ¬overlapY posAB dims20 false true := by
  norm_num [overlapY, dvecY_posAB, lookup]

lemma coulomb_posAB :
    coulomb_repulsion defaultConfig posAB dims20 false true = (-50, 0) := by
  rw [coulomb_repulsion_eq]
  have hs : coulombForceScalar defaultConfig posAB dims20 false true = -5 := by
    unfold coulombForceScalar
    rw [bd_posAB]
    norm_num [defaultConfig, min_def, max_def]
  have hdx : coulombDX posAB dims20 false true = 10 := by
    unfold coulombDX
    rw [if_neg not_overlapX_posAB, dvecX_posAB]
  have hdy : coulombDY posAB dims20 false true = 0 := by
    unfold coulombDY
    rw [if_neg not_overlapY_posAB, dvecY_posAB]
  rw [hs, hdx, hdy]
  norm_num

lemma coulomb_posAB_rev :
    coulomb_repulsion defaultConfig posAB dims20 true false = (50, 0) := by
  rw [coulomb_repulsion_swap, coulomb_posAB]
  norm_num

lemma magnitude_fifty : magnitude ((-50 : ℝ), (0 : ℝ)) = 50 := by
  have s : Real.sqrt (2500 : ℝ) = 50 := sqrt_eq_of_sq 2500 50 (by norm_num) (by norm_num)
  norm_num [magnitude, s]

lemma magnitude_fifty' : magnitude ((50 : ℝ), (0 : ℝ)) = 50 := by
  have s : Real.sqrt (2500 : ℝ) = 50 := sqrt_eq_of_sq 2500 50 (by norm_num) (by norm_num)
  norm_num [magnitude, s]

lemma netForce_posAB_false :
    netForce defaultConfig posAB dims20 [] false = (-50, 0) := by
  simp [netForce, coulomb_posAB]

lemma netForce_posAB_true :
    netForce defaultConfig posAB dims20 [] true = (50, 0) := by
  simp [netForce, coulomb_posAB_rev]

lemma OneStep_posAB_scalar :
    (OneStep_apply defaultConfig posAB dims20 [] [false, true]).2 = 50 := by
  rw [OneStep_apply_eq]
  norm_num [netForce_posAB_false, netForce_posAB_true, magnitude_fifty,
    magnitude_fifty']

lemma dvf_posAB80 : distance_vector_from posAB80 dims20 false true = (10, 0, 70, 0) := by
  have s : Real.sqrt (100 : ℝ) = 10 := sqrt_eq_of_sq 100 10 (by norm_num) (by norm_num)
  norm_num [distance_vector_from, lookup, s]

lemma dvecX_posAB80 : dvecX posAB80 dims20 false true = 60 := by
  norm_num [dvecX, dvf_posAB80]

lemma dvecY_posAB80 : dvecY posAB80 dims20 false true = 0 := by
  norm_num [dvecY, dvf_posAB80]

lemma bd_posAB80 : boundaryDistance posAB80 dims20 false true = 60 := by
  have s : Real.sqrt (3600 : ℝ) = 60 := sqrt_eq_of_sq 3600 60 (by norm_num) (by norm_num)
  norm_num [boundaryDistance, dvecX_posAB80, dvecY_posAB80, s]

lemma center_posAB80 : centerDistance posAB80 false true = 80 := by
  have s : Real.sqrt (6400 : ℝ) = 80 := sqrt_eq_of_sq 6400 80 (by norm_num) (by norm_num)
  norm_num [centerDistance, lookup, s]

lemma not_overlapX_posAB80 : ¬overlapX posAB80 dims20 false true := by
  norm_num [overlapX, dvecX_posAB80, lookup]

lemma not_overlapY_posAB80 : ¬overlapY posAB80 dims20 false true := by
  norm_num [overlapY, dvecY_posAB80, lookup]

lemma rest_posAB80 : boundaryDistance posAB80 dims20 false true =
    max (centerDistance posAB80 false true - boundaryDistance posAB80 dims20 false true)
      defaultConfig.minSpringLength := by
  rw [bd_posAB80, center_posAB80]
  norm_num [defaultConfig, max_def]

lemma coulomb_posAB80 :
    coulomb_repulsion defaultConfig posAB80 dims20 false true = (-25 / 3, 0) := by
  rw [coulomb_repulsion_eq]
  have hs : coulombForceScalar defaultConfig posAB80 dims20 false true = -5 / 36 := by
    unfold coulombForceScalar
    rw [bd_posAB80]
    norm_num [defaultConfig, min_def, max_def]
  have hdx : coulombDX posAB80 dims20 false true = 60 := by
    unfold coulombDX
    rw [if_neg not_overlapX_posAB80, dvecX_posAB80]
  have hdy : coulombDY posAB80 dims20 false true = 0 := by
    unfold coulombDY
    rw [if_neg not_overlapY_posAB80, dvecY_posAB80]
  rw [hs, hdx, hdy]
  norm_num

lemma hooke_posAB80 :
    hooke_attraction defaultConfig posAB80 dims20 false true = (0, 0) := by
  exact hooke_zero_at_rest defaultConfig posAB80 dims20 false true
    (by norm_num [defaultConfig]) not_overlapX_posAB80 not_overlapY_posAB80
    rest_posAB80

lemma netForce_posAB80_false :
    netForce defaultConfig posAB80 dims20 [⟨false, true⟩] false = (-25 / 3, 0) := by
  rw [netForce_pair_left defaultConfig dims20 false true (0, 0) (80, 0)
    (by decide), coulomb_posAB80, hooke_posAB80]
  norm_num

lemma magnitude_netForce_posAB80 :
    magnitude (netForce defaultConfig posAB80 dims20 [⟨false, true⟩] false) = 25 / 3 := by
  rw [netForce_posAB80_false]
  have s : Real.sqrt (625 / 9 : ℝ) = 25 / 3 :=
    sqrt_eq_of_sq (625 / 9) (25 / 3) (by norm_num) (by norm_num)
  norm_num [magnitude, s]

lemma dvf_posOverlap :
    distance_vector_from posOverlap dims20 false true = (10, 0, -5, 0) := by
  have s : Real.sqrt (100 : ℝ) = 10 := sqrt_eq_of_sq 100 10 (by norm_num) (by norm_num)
  norm_num [distance_vector_from, lookup, s]

lemma dvecX_posOverlap : dvecX posOverlap dims20 false true = -15 := by
  norm_num [dvecX, dvf_posOverlap]

lemma overlapX_posOverlap : overlapX posOverlap dims20 false true := by
  norm_num [overlapX, dvecX_posOverlap, lookup]

/-! ### Claims -/

/-- C1 (counterexample): at boundary gap 10 (two 20×20 vertices at (0,0) and
(30,0), distinct, positive half-extents, distinct centers) the Coulomb force
vector has magnitude 50, exceeding `maxForce = 10`: the code clamps the
scalar coefficient, not the vector magnitude. -/
theorem force_cap_violated_at_gap_ten :
    (false ≠ true) ∧
    (0 < (dims20 false).1 / 2 ∧ 0 < (dims20 false).2 / 2 ∧
      0 < (dims20 true).1 / 2 ∧ 0 < (dims20 true).2 / 2) ∧
    lookup posAB false ≠ lookup posAB true ∧
    defaultConfig.maxForce <
      magnitude (coulomb_repulsion defaultConfig posAB dims20 false true) := by
  refine ⟨by decide, by norm_num, by norm_num [lookup, Prod.ext_iff], ?_⟩
  rw [coulomb_posAB, magnitude_fifty]
  norm_num [defaultConfig]

/-- C1 (amended): both `_coulomb_repulsion` and `_hooke_attraction` clamp the
scalar force coefficient to `±maxForce`, so the magnitude of the returned
vector is bounded by `maxForce` times the boundary-to-boundary distance (not
by `maxForce` itself). -/
theorem force_scalar_clamped_magnitude_le (cfg : Config) (positions : PosMap V)
    (dims : V → ℝ × ℝ) (vertex other : V) (hM : 0 ≤ cfg.maxForce) :
    magnitude (coulomb_repulsion cfg positions dims vertex other) ≤
      cfg.maxForce * boundaryDistance positions dims vertex other ∧
    magnitude (hooke_attraction cfg positions dims vertex other) ≤
      cfg.maxForce * boundaryDistance positions dims vertex other :=
  ⟨coulomb_magnitude_le cfg positions dims vertex other hM,
   hooke_magnitude_le cfg positions dims vertex other hM⟩

/-- Witness for C1's amended theorem at the default configuration. -/
theorem force_scalar_clamped_magnitude_le_witness :
    magnitude (coulomb_repulsion defaultConfig posAB dims20 false true) ≤
      defaultConfig.maxForce * boundaryDistance posAB dims20 false true ∧
    magnitude (hooke_attraction defaultConfig posAB dims20 false true) ≤
      defaultConfig.maxForce * boundaryDistance posAB dims20 false true :=
  force_scalar_clamped_magnitude_le defaultConfig posAB dims20 false true
    (by norm_num [defaultConfig])

/-- C2 (amended): the scalar returned by `OneStepForceBasedLayout.apply` is
the average of the net-force magnitudes over ALL vertices of the positions
dict (fixed vertices included, in both the sum and the denominator), and is
zero exactly when the dict is empty. -/
theorem mean_force_over_all_nodes (cfg : Config) (positions : PosMap V)
    (dims : V → ℝ × ℝ) (edges : List (Edge V)) (fixed : List V) :
    (OneStep_apply cfg positions dims edges fixed).2 =
      if 0 < positions.length then
        (positions.map (fun e =>
          magnitude (netForce cfg positions dims edges e.1))).sum / positions.length
      else 0 := by
  rw [OneStep_apply_eq]

/-- C2 (counterexample): with both vertices fixed there are no non-fixed
vertices, yet the returned scalar is 50, not 0: the code averages over all
vertices, fixed ones included. -/
theorem mean_force_fixed_counterexample :
    (∀ e ∈ posAB, e.1 ∈ [false, true]) ∧
    (OneStep_apply defaultConfig posAB dims20 [] [false, true]).2 = 50 ∧
    (OneStep_apply defaultConfig posAB dims20 [] [false, true]).2 ≠ 0 := by
  refine ⟨by simp, OneStep_posAB_scalar, ?_⟩
  rw [OneStep_posAB_scalar]
  norm_num

/-- C3 (amended): for a two-vertex graph with one edge, non-overlapping
shapes and a nonnegative force cap, when the boundary-to-boundary distance
equals the effective rest length the spring force is (0, 0) on both ends, so
each vertex's net force equals the mutual Coulomb repulsion alone (which is
in general nonzero), not zero. -/
theorem rest_length_spring_vanishes (cfg : Config) (dims : V → ℝ × ℝ)
    (a b : V) (pa pb : ℝ × ℝ) (hab : a ≠ b) (hM : 0 ≤ cfg.maxForce)
    (hx : ¬overlapX [(a, pa), (b, pb)] dims a b)
    (hy : ¬overlapY [(a, pa), (b, pb)] dims a b)
    (hc : pa ≠ pb)
    (hrest : boundaryDistance [(a, pa), (b, pb)] dims a b =
      max (centerDistance [(a, pa), (b, pb)] a b -
          boundaryDistance [(a, pa), (b, pb)] dims a b)
        cfg.minSpringLength) :
    hooke_attraction cfg [(a, pa), (b, pb)] dims a b = (0, 0) ∧
    hooke_attraction cfg [(a, pa), (b, pb)] dims b a = (0, 0) ∧
    netForce cfg [(a, pa), (b, pb)] dims [⟨a, b⟩] a =
      coulomb_repulsion cfg [(a, pa), (b, pb)] dims a b ∧
    netForce cfg [(a, pa), (b, pb)] dims [⟨a, b⟩] b =
      coulomb_repulsion cfg [(a, pa), (b, pb)] dims b a := by
  have h1 : hooke_attraction cfg [(a, pa), (b, pb)] dims a b = (0, 0) :=
    hooke_zero_at_rest cfg _ dims a b hM hx hy hrest
  have hx' : ¬overlapX [(a, pa), (b, pb)] dims b a := by
    rw [overlapX_symm]
    exact hx
  have hy' : ¬overlapY [(a, pa), (b, pb)] dims b a := by
    rw [overlapY_symm]
    exact hy
  have hrest' : boundaryDistance [(a, pa), (b, pb)] dims b a =
      max (centerDistance [(a, pa), (b, pb)] b a -
          boundaryDistance [(a, pa), (b, pb)] dims b a)
        cfg.minSpringLength := by
    rw [boundaryDistance_symm, centerDistance_symm]
    exact hrest
  have h2 : hooke_attraction cfg [(a, pa), (b, pb)] dims b a = (0, 0) :=
    hooke_zero_at_rest cfg _ dims b a hM hx' hy' hrest'
  refine ⟨h1, h2, ?_, ?_⟩
  · rw [netForce_pair_left cfg dims a b pa pb hab, h1]
    simp
  · rw [netForce_pair_right cfg dims a b pa pb hab, h2]
    simp

/-- Witness for C3's amended theorem: vertices at (0,0) and (80,0), 20×20
shapes, boundary gap 60 = rest length. -/
theorem rest_length_spring_vanishes_witness :
    hooke_attraction defaultConfig posAB80 dims20 false true = (0, 0) ∧
    hooke_attraction defaultConfig posAB80 dims20 true false = (0, 0) ∧
    netForce defaultConfig posAB80 dims20 [⟨false, true⟩] false =
      coulomb_repulsion defaultConfig posAB80 dims20 false true ∧
    netForce defaultConfig posAB80 dims20 [⟨false, true⟩] true =
      coulomb_repulsion defaultConfig posAB80 dims20 true false :=
  rest_length_spring_vanishes defaultConfig dims20 false true (0, 0) (80, 0)
    (by decide) (by norm_num [defaultConfig]) not_overlapX_posAB80
    not_overlapY_posAB80 (by norm_num [Prod.ext_iff]) rest_posAB80

/-- C3 (counterexample): in that same configuration the claim's hypotheses
all hold, yet the net force on the first vertex has magnitude 25/3 ≠ 0 (the
Coulomb repulsion does not vanish at the spring's rest length). -/
theorem rest_length_nonzero_net_force :
    (false ≠ true) ∧
    ¬overlapX posAB80 dims20 false true ∧
    ¬overlapY posAB80 dims20 false true ∧
    lookup posAB80 false ≠ lookup posAB80 true ∧
    boundaryDistance posAB80 dims20 false true =
      max (centerDistance posAB80 false true -
          boundaryDistance posAB80 dims20 false true)
        defaultConfig.minSpringLength ∧
    magnitude (netForce defaultConfig posAB80 dims20 [⟨false, true⟩] false) ≠ 0 := by
  refine ⟨by decide, not_overlapX_posAB80, not_overlapY_posAB80,
    by norm_num [lookup, Prod.ext_iff], rest_posAB80, ?_⟩
  rw [magnitude_netForce_posAB80]
  norm_num

/-- C4: a vertex of the fixed set keeps its exact position (and stays a key
of the dict) through `OneStepForceBasedLayout.apply` and through
`ForceBasedLayout.apply` for every iteration budget. -/
theorem fixed_node_invariance (cfg : Config) (fcfg : FConfig)
    (positions : PosMap V) (dims : V → ℝ × ℝ) (edges : List (Edge V))
    (fixed : List V) (v : V) (hv : v ∈ fixed) :
    lookup (OneStep_apply cfg positions dims edges fixed).1 v =
      lookup positions v ∧
    keys (OneStep_apply cfg positions dims edges fixed).1 = keys positions ∧
    lookup (ForceBased_apply fcfg positions dims edges fixed) v =
      lookup positions v ∧
    keys (ForceBased_apply fcfg positions dims edges fixed) = keys positions :=
  ⟨lookup_OneStep_fixed cfg positions dims edges fixed v hv,
   keys_OneStep_apply cfg positions dims edges fixed,
   lookup_ForceBased_loop_fixed fcfg dims edges fixed v hv
     fcfg.iterationNumber positions,
   keys_ForceBased_loop fcfg dims edges fixed fcfg.iterationNumber positions⟩

/-- Witness for C4 on a one-vertex graph with that vertex fixed. -/
theorem fixed_node_invariance_witness :
    lookup (OneStep_apply defaultConfig posSelf dims20 [] [true]).1 true =
      lookup posSelf true ∧
    keys (OneStep_apply defaultConfig posSelf dims20 [] [true]).1 = keys posSelf ∧
    lookup (ForceBased_apply defaultFConfig posSelf dims20 [] [true]) true =
      lookup posSelf true ∧
    keys (ForceBased_apply defaultFConfig posSelf dims20 [] [true]) = keys posSelf :=
  fixed_node_invariance defaultConfig defaultFConfig posSelf dims20 [] [true]
    true (by simp)

/-- C5: `ForceBasedLayout.apply` performs `n ≤ iterationNumber` single steps,
each fed the previous step's output; no step before the last had mean force
below `forceThreshold`, and if it stopped early the last executed step's
mean force was below `forceThreshold`; it returns the positions of the last
step executed (and no mean-force value). -/
theorem forcebased_apply_iteration_spec (fcfg : FConfig) (vertices : PosMap V)
    (dims : V → ℝ × ℝ) (edges : List (Edge V)) (fixed : List V) :
    ∃ n, n ≤ fcfg.iterationNumber ∧
      ForceBased_apply fcfg vertices dims edges fixed =
        stepIter fcfg.toConfig dims edges fixed n vertices ∧
      (∀ k, k + 1 < n → fcfg.forceThreshold ≤
        (OneStep_apply fcfg.toConfig
          (stepIter fcfg.toConfig dims edges fixed k vertices)
          dims edges fixed).2) ∧
      (n < fcfg.iterationNumber → 0 < n ∧
        (OneStep_apply fcfg.toConfig
          (stepIter fcfg.toConfig dims edges fixed (n - 1) vertices)
          dims edges fixed).2 < fcfg.forceThreshold) :=
  ForceBased_loop_spec fcfg dims edges fixed fcfg.iterationNumber vertices

/-- C6: for distinct vertices with non-overlapping shapes (the code's
axis-sign test fires on neither axis) and distinct centers, the two Coulomb
forces are exact negations of each other: equal magnitude, opposite
direction. -/
theorem coulomb_repulsion_symmetry (cfg : Config) (positions : PosMap V)
    (dims : V → ℝ × ℝ) (A B : V) (hAB : A ≠ B)
    (hx : ¬overlapX positions dims A B) (hy : ¬overlapY positions dims A B)
    (hc : lookup positions A ≠ lookup positions B) :
    coulomb_repulsion cfg positions dims B A =
      (-(coulomb_repulsion cfg positions dims A B).1,
       -(coulomb_repulsion cfg positions dims A B).2) ∧
    magnitude (coulomb_repulsion cfg positions dims B A) =
      magnitude (coulomb_repulsion cfg positions dims A B) := by
  refine ⟨coulomb_repulsion_swap cfg positions dims A B, ?_⟩
  rw [coulomb_repulsion_swap, magnitude_neg]

/-- Witness for C6 on the two 20×20 vertices at (0,0) and (30,0). -/
theorem coulomb_repulsion_symmetry_witness :
    coulomb_repulsion defaultConfig posAB dims20 true false =
      (-(coulomb_repulsion defaultConfig posAB dims20 false true).1,
       -(coulomb_repulsion defaultConfig posAB dims20 false true).2) ∧
    magnitude (coulomb_repulsion defaultConfig posAB dims20 true false) =
      magnitude (coulomb_repulsion defaultConfig posAB dims20 false true) :=
  coulomb_repulsion_symmetry defaultConfig posAB dims20 false true (by decide)
    not_overlapX_posAB not_overlapY_posAB (by norm_num [lookup, Prod.ext_iff])

/-- C7: when the axis-sign overlap test fires on either axis,
`_hooke_attraction` returns the zero force vector. -/
theorem hooke_overlap_returns_zero (cfg : Config) (positions : PosMap V)
    (dims : V → ℝ × ℝ) (vertex other : V)
    (h : overlapX positions dims vertex other ∨
      overlapY positions dims vertex other) :
    hooke_attraction cfg positions dims vertex other = (0, 0) := by
  rw [hooke_attraction_eq, if_pos h]

/-- Witness for C7 on two overlapping 20×20 vertices at (0,0) and (5,0). -/
theorem hooke_overlap_returns_zero_witness :
    hooke_attraction defaultConfig posOverlap dims20 false true = (0, 0) :=
  hooke_overlap_returns_zero defaultConfig posOverlap dims20 false true
    (Or.inl overlapX_posOverlap)

/-- C8: the dict returned by `OneStepForceBasedLayout.apply` has exactly the
input dict's keys, in order: no vertex is added or dropped. -/
theorem apply_preserves_key_set (cfg : Config) (positions : PosMap V)
    (dims : V → ℝ × ℝ) (edges : List (Edge V)) (fixed : List V) :
    keys (OneStep_apply cfg positions dims edges fixed).1 = keys positions :=
  keys_OneStep_apply cfg positions dims edges fixed

/-- C9: a self-loop on a vertex of the positions dict makes the force loop
of `OneStepForceBasedLayout.apply` perform a division by zero (Python:
`ZeroDivisionError`): the two boundary points of the vertex paired with
itself coincide, the overlap test does not fire, and `_hooke_attraction`
divides by the zero distance. -/
theorem self_loop_divides_by_zero (positions : PosMap V) (dims : V → ℝ × ℝ)
    (edges : List (Edge V)) (n : V) (edge : Edge V) (hmem : edge ∈ edges)
    (ho : edge.origin = n) (he : edge.end_ = n) (hk : n ∈ keys positions) :
    applyRaisesDivByZero positions dims edges ∧
    hookeRaisesDivByZero positions dims n n := by
  have hra : hookeRaisesDivByZero positions dims n n := by
    constructor
    · rintro (h | h)
      · exact not_overlapX_self positions dims n h
      · exact not_overlapY_self positions dims n h
    · exact boundaryDistance_self positions dims n
  refine ⟨Or.inr ?_, hra⟩
  obtain ⟨e, hep, he1⟩ : ∃ e ∈ positions, e.1 = n := by
    simpa [keys, List.mem_map] using hk
  refine ⟨e, hep, edge, hmem, Or.inl (ho.trans he1.symm), ?_⟩
  rw [if_pos (ho.trans he1.symm), he, he1]
  exact hra

/-- Witness for C9: a single vertex with a self-loop. -/
theorem self_loop_divides_by_zero_witness :
    applyRaisesDivByZero posSelf dims20 [Edge.mk true true] ∧
    hookeRaisesDivByZero posSelf dims20 true true :=
  self_loop_divides_by_zero posSelf dims20 [Edge.mk true true] true
    (Edge.mk true true) (List.mem_singleton.mpr rfl) rfl rfl (by simp [keys])

/-- C10: `OneStepForceBasedLayout.apply` returns a freshly built dict whose
every entry is a function of the unchanged input snapshot (old position plus
the net force computed from the input positions), and
`ForceBasedLayout.apply` is an iteration of that pure step; the embedded
input dict appears unchanged in both characterizations. -/
theorem apply_does_not_mutate_input (cfg : Config) (fcfg : FConfig)
    (positions : PosMap V) (dims : V → ℝ × ℝ) (edges : List (Edge V))
    (fixed : List V) :
    (OneStep_apply cfg positions dims edges fixed).1 =
      positions.map (fun e => (e.1, stepVal cfg positions dims edges fixed e.1)) ∧
    ∃ n, n ≤ fcfg.iterationNumber ∧
      ForceBased_apply fcfg positions dims edges fixed =
        stepIter fcfg.toConfig dims edges fixed n positions := by
  constructor
  · rw [OneStep_apply_eq]
  · obtain ⟨n, hn, heq, -, -⟩ :=
      ForceBased_loop_spec fcfg dims edges fixed fcfg.iterationNumber positions
    exact ⟨n, hn, heq⟩

end CanvasGraph
